import Mathlib

/-!
Verification of the intelligent-notebook client's generation-orchestration
and persistence layer.

The definitions below are a shallow embedding of the application code:

* `types.ts` — the data model (`Source`, `Notebook`, `ChatMessage`,
  `SavedItem`, the structured artifact payloads).
* `App.tsx` — the orchestrator: `handleSendMessage` (split into its
  synchronous prefix `sendStart`, the awaited backend call, and the
  settlement suffix `sendFinish`), `handleAddSourceToNotebook`,
  `handleSaveItemToNotebook`, `handleDeleteSavedItem`,
  `handleDeleteNotebook`.
* `ChatView.tsx` — the submission guards (`disabled` conditions of the
  input controls and the `handleSubmit` / `handleSpecialAction` checks).
* `geminiService.ts` — the per-intent dispatch (modelled as an
  environment `BackendBehavior` giving each service call's outcome) and
  the fixed-depth mind-map response schema
  (`mindMapNodeSchemaL1` … `mindMapNodeSchemaL5`, `mindMapSchema`).

`Date.now()` is modelled by an explicit `now : Nat` argument at every
operation that reads the clock; the template literal `` `source_${Date.now()}` ``
becomes `"source_" ++ decRepr now` where `decRepr` renders a natural
number in decimal. `new Date().toISOString()` is likewise modelled as a
rendering of the same clock instant.
-/

/-- `SourceType` from types.ts: `'text' | 'url'`. -/
inductive SourceType where
  | text
  | url
deriving DecidableEq

/-- `Source` from types.ts. -/
structure Source where
  id : String
  type : SourceType
  title : String
  content : String
deriving DecidableEq

/-- The `ContentType` enum from types.ts. -/
inductive ContentType where
  | TEXT
  | QUIZ
  | FLASHCARDS
  | PODCAST
  | ERROR
  | SUMMARY
  | FAQ
  | TIMELINE
  | IDEAS
  | CRITIQUE
  | MIND_MAP
  | DEBATE
deriving DecidableEq

/-- `QuizQuestion` from types.ts. -/
structure QuizQuestion where
  question : String
  options : List String
  correctAnswer : String
deriving DecidableEq

/-- `Flashcard` from types.ts (carries its own id). -/
structure Flashcard where
  id : String
  term : String
  definition : String
deriving DecidableEq

/-- `Omit<Flashcard, 'id'>`: the raw flashcard payload returned by the
backend before `App.tsx` assigns ids. -/
structure RawFlashcard where
  term : String
  definition : String
deriving DecidableEq

/-- `FAQItem` from types.ts. -/
structure FAQItem where
  question : String
  answer : String
deriving DecidableEq

/-- `TimelineEvent` from types.ts. -/
structure TimelineEvent where
  date : String
  event : String
  description : String
deriving DecidableEq

/-- `MindMapNode` from types.ts: `{topic, children?: MindMapNode[]}`
(an absent `children` is modelled as the empty list). -/
inductive MindMapNode where
  | mk (topic : String) (children : List MindMapNode)

/-- One viewpoint of a `Debate` from types.ts. -/
structure Viewpoint where
  title : String
  arguments : List String
deriving DecidableEq

/-- `Debate` from types.ts. -/
structure Debate where
  viewpointA : Viewpoint
  viewpointB : Viewpoint
deriving DecidableEq

/-- Message role: `'user' | 'model'`. -/
inductive Role where
  | user
  | model
deriving DecidableEq

/-- The union of `contentData` payload shapes from types.ts. -/
inductive ContentData where
  | quiz (questions : List QuizQuestion)
  | flashcards (cards : List Flashcard)
  | podcast (script : String)
  | plain (s : String)
  | faq (items : List FAQItem)
  | timeline (events : List TimelineEvent)
  | mindmap (root : MindMapNode)
  | debate (d : Debate)

/-- `ChatMessage` from types.ts. -/
structure ChatMessage where
  id : String
  role : Role
  text : String
  contentType : ContentType
  contentData : Option ContentData

/-- `SavedItem` from types.ts. -/
structure SavedItem where
  id : String
  notebookId : String
  title : String
  type : ContentType
  contentData : ContentData
  createdAt : String

/-- `Notebook` from types.ts; `savedItems?` is optional, hence `Option`. -/
structure Notebook where
  id : String
  title : String
  sources : List Source
  createdAt : String
  savedItems : Option (List SavedItem)

/-- `Record<string, ChatMessage[]>`: the per-notebook conversation logs,
as an insertion-ordered association list (JS object semantics). -/
abbrev ChatHistory := List (String × List ChatMessage)

/-- The App-level state: the four pieces of mutable state `App.tsx` keeps
(`notebooks`, `activeNotebookId`, `chatHistory`, `isLoading`). -/
structure AppState where
  notebooks : List Notebook
  activeNotebookId : Option String
  chatHistory : ChatHistory
  isLoading : Bool

/-- `chatHistory[notebookId] || []`. -/
def histGet (h : ChatHistory) (k : String) : List ChatMessage :=
  match h.find? (fun kv => kv.1 == k) with
  | some kv => kv.2
  | none => []

/-- `{ ...prev, [k]: v }`: update an existing key in place (JS objects
keep insertion order), or append a new one. -/
def histSet (h : ChatHistory) (k : String) (v : List ChatMessage) : ChatHistory :=
  if h.any (fun kv => kv.1 == k) then
    h.map (fun kv => if kv.1 == k then (k, v) else kv)
  else
    h ++ [(k, v)]

/-- `updateChat` from App.tsx: append one message to one notebook's log. -/
def updateChat (h : ChatHistory) (notebookId : String) (message : ChatMessage) : ChatHistory :=
  histSet h notebookId (histGet h notebookId ++ [message])

/-- `delete newChatHistory[id]`. -/
def histDelete (h : ChatHistory) (k : String) : ChatHistory :=
  h.filter (fun kv => kv.1 != k)

/-- `notebooks.find(n => n.id === id) || null`. -/
def findNotebook (notebooks : List Notebook) (id : String) : Option Notebook :=
  notebooks.find? (fun n => n.id == id)

/-- `activeNotebook` in App.tsx:
`notebooks.find(n => n.id === activeNotebookId) || null`. -/
def activeNotebookOf (st : AppState) : Option Notebook :=
  match st.activeNotebookId with
  | some aid => findNotebook st.notebooks aid
  | none => none

/-- `(n.savedItems || [])`. -/
def savedItemsOf (n : Notebook) : List SavedItem :=
  n.savedItems.getD []

/-- Decimal digit character. -/
def digitChar10 (d : Nat) : Char := Char.ofNat (48 + d)

/-- Decimal rendering of a natural number, modelling the template-literal
interpolation `` `${Date.now()}` `` of the clock value. -/
def decRepr (n : Nat) : String :=
  if n = 0 then "0" else String.mk (((Nat.digits 10 n).map digitChar10).reverse)

/-- `` `source_${Date.now()}` ``. -/
def sourceIdOf (now : Nat) : String := "source_" ++ decRepr now

/-- `` `saved_${Date.now()}` ``. -/
def savedIdOf (now : Nat) : String := "saved_" ++ decRepr now

/-- `` `msg_${Date.now()}` ``. -/
def msgIdOf (now : Nat) : String := "msg_" ++ decRepr now

/-- `` `flashcard_${Date.now()}_${index}` ``. -/
def flashcardIdOf (now index : Nat) : String :=
  "flashcard_" ++ decRepr now ++ "_" ++ decRepr index

/-- The `newSource` object built by `handleAddSourceToNotebook`. -/
def mkNewSource (title content : String) (type : SourceType) (now : Nat) : Source :=
  { id := sourceIdOf now, type := type, title := title, content := content }

/-- `handleAddSourceToNotebook` from App.tsx. -/
def handleAddSourceToNotebook (st : AppState) (notebookId title content : String)
    (type : SourceType) (now : Nat) : AppState :=
  let newSource := mkNewSource title content type now
  { st with notebooks := st.notebooks.map (fun n =>
      if n.id == notebookId then { n with sources := n.sources ++ [newSource] } else n) }

/-- The `itemData` argument of `handleSaveItemToNotebook`. -/
structure SaveItemData where
  type : ContentType
  contentData : ContentData
  title : String

/-- The `newItem` object built by `handleSaveItemToNotebook`. -/
def mkSavedItem (notebookId : String) (itemData : SaveItemData) (now : Nat) : SavedItem :=
  { id := savedIdOf now, notebookId := notebookId, title := itemData.title,
    type := itemData.type, contentData := itemData.contentData, createdAt := decRepr now }

/-- `handleSaveItemToNotebook` from App.tsx. -/
def handleSaveItemToNotebook (st : AppState) (notebookId : String)
    (itemData : SaveItemData) (now : Nat) : AppState :=
  let newItem := mkSavedItem notebookId itemData now
  { st with notebooks := st.notebooks.map (fun n =>
      if n.id == notebookId then { n with savedItems := some (savedItemsOf n ++ [newItem]) } else n) }

/-- `handleDeleteSavedItem` from App.tsx. -/
def handleDeleteSavedItem (st : AppState) (notebookId itemId : String) : AppState :=
  { st with notebooks := st.notebooks.map (fun n =>
      if n.id == notebookId then
        { n with savedItems := some ((savedItemsOf n).filter (fun item => item.id != itemId)) }
      else n) }

/-- `handleDeleteNotebook` from App.tsx. -/
def handleDeleteNotebook (st : AppState) (id : String) : AppState :=
  let newNotebooks := st.notebooks.filter (fun n => n.id != id)
  { st with
    notebooks := newNotebooks
    chatHistory := histDelete st.chatHistory id
    activeNotebookId :=
      if st.activeNotebookId = some id then
        match newNotebooks with
        | [] => none
        | n :: _ => some n.id
      else st.activeNotebookId }

/-- The outcome of one awaited geminiService call: the resolved value, or
the thrown error (any of the failure kinds — backend failure, invalid
format, fetch failure, unexpected exception — reaches `handleSendMessage`
as a single caught exception). -/
inductive Outcome (α : Type) where
  | ok (value : α)
  | err (message : String)

/-- The environment: what each geminiService function would return for
the current request.  The orchestrator never inspects payloads, so the
environment is adversarial. -/
structure BackendBehavior where
  chat : Outcome String
  summary : Outcome String
  quiz : Outcome (List QuizQuestion)
  flashcards : Outcome (List RawFlashcard)
  faq : Outcome (List FAQItem)
  timeline : Outcome (List TimelineEvent)
  podcast : Outcome String
  ideas : Outcome String
  critique : Outcome String
  mindmap : Outcome MindMapNode
  debate : Outcome Debate

/-- The closed intent set of `handleSendMessage`'s `type` parameter. -/
inductive IntentType where
  | chat
  | quiz
  | flashcards
  | podcast
  | summary
  | faq
  | timeline
  | ideas
  | critique
  | mindmap
  | debate
deriving DecidableEq

/-- The fields of the `response` message each `switch` case constructs. -/
structure ModelReply where
  text : String
  contentType : ContentType
  contentData : Option ContentData

/-- The flashcard id assignment in the `'flashcards'` case of App.tsx:
`rawFlashcards.map((card, index) => ({...card, id: ...}))`. -/
def assignFlashcardIds (raw : List RawFlashcard) (now : Nat) : List Flashcard :=
  raw.enum.map (fun ci =>
    { id := flashcardIdOf now ci.1, term := ci.2.term, definition := ci.2.definition })

/-- The `switch (type)` of `handleSendMessage`: one backend call per
intent, then the fixed text / contentType / contentData of the response
message.  `now2` is the clock when the awaited call settles (used by the
flashcard ids, which read `Date.now()` after the await). -/
def runIntent (type : IntentType) (b : BackendBehavior) (now2 : Nat) : Outcome ModelReply :=
  match type with
  | .chat =>
    match b.chat with
    | .ok s => .ok { text := s, contentType := .TEXT, contentData := none }
    | .err e => .err e
  | .summary =>
    match b.summary with
    | .ok s => .ok { text := "Here is a summary of the sources:", contentType := .SUMMARY,
                     contentData := some (.plain s) }
    | .err e => .err e
  | .quiz =>
    match b.quiz with
    | .ok qs => .ok { text := "Here is your quiz:", contentType := .QUIZ,
                      contentData := some (.quiz qs) }
    | .err e => .err e
  | .flashcards =>
    match b.flashcards with
    | .ok raw => .ok { text := "Here are your flashcards:", contentType := .FLASHCARDS,
                       contentData := some (.flashcards (assignFlashcardIds raw now2)) }
    | .err e => .err e
  | .faq =>
    match b.faq with
    | .ok items => .ok { text := "Here are some frequently asked questions:", contentType := .FAQ,
                         contentData := some (.faq items) }
    | .err e => .err e
  | .timeline =>
    match b.timeline with
    | .ok events => .ok { text := "Here is a timeline of key events:", contentType := .TIMELINE,
                          contentData := some (.timeline events) }
    | .err e => .err e
  | .podcast =>
    match b.podcast with
    | .ok script => .ok { text := "Podcast Script:", contentType := .PODCAST,
                          contentData := some (.podcast script) }
    | .err e => .err e
  | .ideas =>
    match b.ideas with
    | .ok s => .ok { text := "Here are some ideas based on the sources:", contentType := .IDEAS,
                     contentData := some (.plain s) }
    | .err e => .err e
  | .critique =>
    match b.critique with
    | .ok s => .ok { text := "Here is a critique of the sources:", contentType := .CRITIQUE,
                     contentData := some (.plain s) }
    | .err e => .err e
  | .mindmap =>
    match b.mindmap with
    | .ok root => .ok { text := "Here is a mind map of the key concepts:", contentType := .MIND_MAP,
                        contentData := some (.mindmap root) }
    | .err e => .err e
  | .debate =>
    match b.debate with
    | .ok d => .ok { text := "Here is a debate on the source material:", contentType := .DEBATE,
                     contentData := some (.debate d) }
    | .err e => .err e

/-- The data captured by `handleSendMessage` before the await: the target
notebook, intent, message, the notebook's sources, and the response
message id `msg_${Date.now() + 1}` computed before the call. -/
structure PendingCall where
  notebookId : String
  intentType : IntentType
  message : String
  sources : List Source
  msgId : String

/-- Observable orchestrator events, in program order. -/
inductive OrchEvent where
  | appendUser (notebookId : String) (message : ChatMessage)
  | backendCall (intentType : IntentType) (sources : List Source)
  | appendModel (notebookId : String) (message : ChatMessage)
  | appendError (notebookId : String) (message : ChatMessage)

/-- The `userMessage` object of `handleSendMessage`. -/
def userMessageOf (now : Nat) (text : String) : ChatMessage :=
  { id := msgIdOf now, role := .user, text := text, contentType := .TEXT, contentData := none }

/-- The `errorMessage` object of the `catch` block of `handleSendMessage`. -/
def errorMessageOf (now2 : Nat) : ChatMessage :=
  { id := msgIdOf (now2 + 1), role := .model,
    text := "Sorry, I encountered an error. Please check the console for details.",
    contentType := .ERROR, contentData := none }

/-- The synchronous prefix of `handleSendMessage` (App.tsx lines 87-98):
the `!activeNotebook || isLoading` guard, `setIsLoading(true)`, the
synchronous append of the user message, and the capture of `msgId` and
`sources` before the awaited call.  `none` means the submission returned
without doing anything. -/
def sendStart (st : AppState) (message : String) (type : IntentType) (now : Nat) :
    Option (AppState × PendingCall) :=
  match activeNotebookOf st with
  | none => none
  | some nb =>
    if st.isLoading then none
    else
      let userMessage := userMessageOf now message
      some ({ st with
                isLoading := true
                chatHistory := updateChat st.chatHistory nb.id userMessage },
            { notebookId := nb.id, intentType := type, message := message,
              sources := nb.sources, msgId := msgIdOf (now + 1) })

/-- The settlement suffix of `handleSendMessage` (App.tsx lines 100-129):
on success append the response message, on any caught error append the
single ERROR message; `finally` clears the busy flag. -/
def sendFinish (st : AppState) (call : PendingCall) (b : BackendBehavior) (now2 : Nat) :
    AppState × List OrchEvent :=
  match runIntent call.intentType b now2 with
  | .ok reply =>
    let responseMessage : ChatMessage :=
      { id := call.msgId, role := .model, text := reply.text,
        contentType := reply.contentType, contentData := reply.contentData }
    ({ st with
         isLoading := false
         chatHistory := updateChat st.chatHistory call.notebookId responseMessage },
     [.appendModel call.notebookId responseMessage])
  | .err _ =>
    let errorMessage := errorMessageOf now2
    ({ st with
         isLoading := false
         chatHistory := updateChat st.chatHistory call.notebookId errorMessage },
     [.appendError call.notebookId errorMessage])

/-- `handleSendMessage` from App.tsx, run to completion against the
backend environment `b`; also returns the event trace in program order. -/
def handleSendMessage (st : AppState) (message : String) (type : IntentType)
    (now : Nat) (b : BackendBehavior) (now2 : Nat) : AppState × List OrchEvent :=
  match sendStart st message type now with
  | none => (st, [])
  | some (st1, call) =>
    let finished := sendFinish st1 call b now2
    (finished.1,
     .appendUser call.notebookId (userMessageOf now message) ::
       .backendCall call.intentType call.sources :: finished.2)

/-- `hasSources` in ChatView.tsx: `notebook.sources.length > 0`. -/
def hasSources (notebook : Notebook) : Bool :=
  decide (notebook.sources.length > 0)

/-- The chat textarea's `disabled={!hasSources || isLoading}`. -/
def textareaDisabled (notebook : Notebook) (isLoading : Bool) : Bool :=
  !hasSources notebook || isLoading

/-- The send button's `disabled={!input.trim() || !hasSources || isLoading}`. -/
def sendButtonDisabled (input : String) (notebook : Notebook) (isLoading : Bool) : Bool :=
  input.trim == "" || !hasSources notebook || isLoading

/-- Each special-action button's `disabled={!hasSources || isLoading}`. -/
def specialActionDisabled (notebook : Notebook) (isLoading : Bool) : Bool :=
  !hasSources notebook || isLoading

/-- The guard inside `ChatView.handleSubmit`:
`if (input.trim() && !isLoading)` fires `onSendMessage`. -/
def chatSubmitFires (input : String) (isLoading : Bool) : Bool :=
  input.trim != "" && !isLoading

/-- The guard inside `ChatView.handleSpecialAction`: `if (!isLoading)`. -/
def specialActionFires (isLoading : Bool) : Bool :=
  !isLoading

/-- A configuration of the orchestrator session: the application state
plus the multiset of calls issued but not yet settled. -/
structure OrchConfig where
  st : AppState
  pending : List PendingCall

/-- Session steps: a submission that passes the guard issues a call; a
submission that fails the guard changes nothing; a pending call settles
through `sendFinish`. -/
inductive OrchStep : OrchConfig → OrchConfig → Prop where
  | start (c : OrchConfig) (message : String) (type : IntentType) (now : Nat)
      (st1 : AppState) (call : PendingCall)
      (h : sendStart c.st message type now = some (st1, call)) :
      OrchStep c ⟨st1, c.pending ++ [call]⟩
  | refused (c : OrchConfig) (message : String) (type : IntentType) (now : Nat)
      (h : sendStart c.st message type now = none) :
      OrchStep c c
  | settle (st : AppState) (call : PendingCall) (rest : List PendingCall)
      (b : BackendBehavior) (now2 : Nat) :
      OrchStep ⟨st, call :: rest⟩ ⟨(sendFinish st call b now2).1, rest⟩

/-- Reflexive-transitive closure of `OrchStep`. -/
inductive OrchReaches : OrchConfig → OrchConfig → Prop where
  | refl (c : OrchConfig) : OrchReaches c c
  | tail {a b c : OrchConfig} : OrchReaches a b → OrchStep b c → OrchReaches a c

/-- The single-flight invariant: at most one outstanding call, and the
busy flag is set whenever a call is outstanding. -/
def SingleFlightInv (c : OrchConfig) : Prop :=
  c.pending.length ≤ 1 ∧ (c.pending ≠ [] → c.st.isLoading = true)

/-- A JSON value, the domain of the structured-output schemas. -/
inductive Json where
  | str (s : String)
  | num (n : Int)
  | arr (elements : List Json)
  | obj (fields : List (String × Json))

/-- `{ type: Type.STRING }` acceptance. -/
def isStringJson : Json → Bool
  | .str _ => true
  | _ => false

mutual

/-- Nesting depth of a JSON value, counting object levels. -/
def jsonDepth : Json → Nat
  | .str _ => 0
  | .num _ => 0
  | .arr elements => jsonDepthList elements
  | .obj fields => 1 + jsonDepthFields fields

/-- Greatest `jsonDepth` among a list of values. -/
def jsonDepthList : List Json → Nat
  | [] => 0
  | x :: xs => max (jsonDepth x) (jsonDepthList xs)

/-- Greatest `jsonDepth` among the values of an object's fields. -/
def jsonDepthFields : List (String × Json) → Nat
  | [] => 0
  | f :: fs => max (jsonDepth f.2) (jsonDepthFields fs)

end

/-- Whether an object value carries a `children` field. -/
def hasChildrenField : Json → Bool
  | .obj fields => fields.any (fun f => f.1 == "children")
  | _ => false

/-- `mindMapNodeSchemaL5` from geminiService.ts: an OBJECT with the single
property `topic` (STRING, required) — the topic-only leaf schema. -/
def mindMapNodeSchemaL5 (v : Json) : Bool :=
  match v with
  | .obj fields =>
    fields.any (fun f => f.1 == "topic") &&
    fields.all (fun f => f.1 == "topic" && isStringJson f.2)
  | _ => false

/-- The common shape of `mindMapNodeSchemaL1` … `L4` and `mindMapSchema`:
an OBJECT with `topic` (STRING, required) and `children` (ARRAY of the
next level's schema, optional). -/
def schemaNodeWith (childAccepts : Json → Bool) (v : Json) : Bool :=
  match v with
  | .obj fields =>
    fields.any (fun f => f.1 == "topic") &&
    fields.all (fun f =>
      if f.1 == "topic" then isStringJson f.2
      else if f.1 == "children" then
        match f.2 with
        | .arr elements => elements.all childAccepts
        | _ => false
      else false)
  | _ => false

/-- `mindMapNodeSchemaL4` from geminiService.ts. -/
def mindMapNodeSchemaL4 : Json → Bool := schemaNodeWith mindMapNodeSchemaL5

/-- `mindMapNodeSchemaL3` from geminiService.ts. -/
def mindMapNodeSchemaL3 : Json → Bool := schemaNodeWith mindMapNodeSchemaL4

/-- `mindMapNodeSchemaL2` from geminiService.ts. -/
def mindMapNodeSchemaL2 : Json → Bool := schemaNodeWith mindMapNodeSchemaL3

/-- `mindMapNodeSchemaL1` from geminiService.ts. -/
def mindMapNodeSchemaL1 : Json → Bool := schemaNodeWith mindMapNodeSchemaL2

/-- `mindMapSchema` from geminiService.ts: the root schema passed as
`responseSchema` of the mind-map generation call. -/
def mindMapSchema : Json → Bool := schemaNodeWith mindMapNodeSchemaL1

/-- A chain of nested mind-map objects of the given object depth. -/
def mindMapChain : Nat → Json
  | 0 => .str "x"
  | 1 => .obj [("topic", .str "t")]
  | n + 1 => .obj [("topic", .str "t"), ("children", .arr [mindMapChain n])]

/-- One `addSource` call's arguments (plus the clock value observed). -/
structure AddSourceCall where
  title : String
  content : String
  type : SourceType
  now : Nat

/-- A sequence of `handleAddSourceToNotebook` calls against one notebook. -/
def runAddSources (st : AppState) (notebookId : String) (calls : List AddSourceCall) : AppState :=
  calls.foldl (fun s c => handleAddSourceToNotebook s notebookId c.title c.content c.type c.now) st

/-- One Saved-Items-Library call: a save (with the clock value observed)
or a delete. -/
inductive LibOp where
  | save (itemData : SaveItemData) (now : Nat)
  | delete (itemId : String)

/-- A sequence of save / delete calls against one notebook's library. -/
def runLibOps (st : AppState) (notebookId : String) (ops : List LibOp) : AppState :=
  ops.foldl (fun s op =>
    match op with
    | .save itemData now => handleSaveItemToNotebook s notebookId itemData now
    | .delete itemId => handleDeleteSavedItem s notebookId itemId) st

/-- The effect of one library call on the notebook's savedItems list (the
list-level shadow of `handleSaveItemToNotebook` / `handleDeleteSavedItem`). -/
def libStep (notebookId : String) (items : List SavedItem) : LibOp → List SavedItem
  | .save itemData now => items ++ [mkSavedItem notebookId itemData now]
  | .delete itemId => items.filter (fun item => item.id != itemId)

/-- Number of save calls in a sequence. -/
def numSaves : List LibOp → Nat
  | [] => 0
  | .save _ _ :: rest => 1 + numSaves rest
  | .delete _ :: rest => numSaves rest

/-- The clock values observed by the save calls of a sequence. -/
def saveNows : List LibOp → List Nat
  | [] => []
  | .save _ now :: rest => now :: saveNows rest
  | .delete _ :: rest => saveNows rest

/-- Number of matching delete calls: deletes whose id is present in the
savedItems collection at the moment the delete runs. -/
def matchingDeletes (notebookId : String) (items : List SavedItem) : List LibOp → Nat
  | [] => 0
  | op :: rest =>
    (match op with
     | .delete itemId => if items.any (fun item => item.id == itemId) then 1 else 0
     | .save _ _ => 0) + matchingDeletes notebookId (libStep notebookId items op) rest

theorem digitChar10_toNat {d : Nat} (hd : d < 10) : (digitChar10 d).toNat = 48 + d := by
  interval_cases d <;> decide

theorem map_digitChar10_toNat (l : List Nat) (hl : ∀ d ∈ l, d < 10) :
    (l.map digitChar10).map Char.toNat = l.map (fun d => 48 + d) := by
  rw [List.map_map]
  exact List.map_congr_left (fun d hd => digitChar10_toNat (hl d hd))

theorem decRepr_data_of_ne_zero {n : Nat} (hn : n ≠ 0) :
    (decRepr n).data = ((Nat.digits 10 n).map digitChar10).reverse := by
  simp [decRepr, hn]

theorem decRepr_injective : Function.Injective decRepr := by
  intro a b h
  by_cases ha : a = 0 <;> by_cases hb : b = 0
  · rw [ha, hb]
  · exfalso
    have hd := congrArg String.data h
    rw [ha] at hd
    rw [decRepr_data_of_ne_zero hb] at hd
    have hd' := congrArg (List.map Char.toNat) hd
    rw [List.map_reverse, map_digitChar10_toNat _ (fun d hdm => Nat.digits_lt_base (by norm_num) hdm)] at hd'
    have hzero : (decRepr 0).data.map Char.toNat = [48] := by decide
    rw [hzero] at hd'
    have hsing : (Nat.digits 10 b).map (fun d => 48 + d) = [48] := by
      have := congrArg List.reverse hd'
      simpa using this.symm
    have hdig : Nat.digits 10 b = [0] := by
      cases hds : Nat.digits 10 b with
      | nil => rw [hds] at hsing; simp at hsing
      | cons d rest =>
        rw [hds] at hsing
        simp at hsing
        obtain ⟨h48, hrest⟩ := hsing
        have : d = 0 := by omega
        rw [this, hrest]
    have : b = Nat.ofDigits 10 (Nat.digits 10 b) := (Nat.ofDigits_digits 10 b).symm
    rw [hdig] at this
    simp [Nat.ofDigits] at this
    exact hb this
  · exfalso
    have hd := congrArg String.data h
    rw [hb] at hd
    rw [decRepr_data_of_ne_zero ha] at hd
    have hd' := congrArg (List.map Char.toNat) hd
    rw [List.map_reverse, map_digitChar10_toNat _ (fun d hdm => Nat.digits_lt_base (by norm_num) hdm)] at hd'
    have hzero : (decRepr 0).data.map Char.toNat = [48] := by decide
    rw [hzero] at hd'
    have hsing : (Nat.digits 10 a).map (fun d => 48 + d) = [48] := by
      have := congrArg List.reverse hd'
      simpa using this
    have hdig : Nat.digits 10 a = [0] := by
      cases hds : Nat.digits 10 a with
      | nil => rw [hds] at hsing; simp at hsing
      | cons d rest =>
        rw [hds] at hsing
        simp at hsing
        obtain ⟨h48, hrest⟩ := hsing
        have : d = 0 := by omega
        rw [this, hrest]
    have : a = Nat.ofDigits 10 (Nat.digits 10 a) := (Nat.ofDigits_digits 10 a).symm
    rw [hdig] at this
    simp [Nat.ofDigits] at this
    exact ha this
  · have hd := congrArg String.data h
    rw [decRepr_data_of_ne_zero ha, decRepr_data_of_ne_zero hb] at hd
    have hd' := congrArg (List.map Char.toNat) hd
    rw [List.map_reverse, List.map_reverse,
        map_digitChar10_toNat _ (fun d hdm => Nat.digits_lt_base (by norm_num) hdm),
        map_digitChar10_toNat _ (fun d hdm => Nat.digits_lt_base (by norm_num) hdm)] at hd'
    rw [List.reverse_inj] at hd'
    have hmapinj : Function.Injective (List.map (fun d : Nat => 48 + d)) :=
      List.map_injective_iff.mpr (fun x y hxy => by omega)
    exact Nat.digits.injective 10 (hmapinj hd')

theorem prefixed_decRepr_injective (p : String) :
    Function.Injective (fun n => p ++ decRepr n) := by
  intro a b h
  apply decRepr_injective
  have hd := congrArg String.data h
  simp only [String.data_append] at hd
  exact String.ext (List.append_cancel_left hd)

theorem sourceIdOf_injective : Function.Injective sourceIdOf :=
  prefixed_decRepr_injective "source_"

theorem savedIdOf_injective : Function.Injective savedIdOf :=
  prefixed_decRepr_injective "saved_"

theorem find?_cons_pos' {α : Type} (p : α → Bool) (a : α) (l : List α) (h : p a = true) :
    List.find? p (a :: l) = some a :=
  List.find?_cons_of_pos l h

theorem find?_cons_neg' {α : Type} (p : α → Bool) (a : α) (l : List α) (h : ¬ p a = true) :
    List.find? p (a :: l) = List.find? p l :=
  List.find?_cons_of_neg l h

theorem find?_replace (h : ChatHistory) (k : String) (v : List ChatMessage)
    (hc : h.any (fun kv => kv.1 == k) = true) :
    (h.map (fun kv => if kv.1 == k then (k, v) else kv)).find? (fun kv => kv.1 == k) =
      some (k, v) := by
  induction h with
  | nil => simp at hc
  | cons kv rest ih =>
    by_cases hk : (kv.1 == k) = true
    · rw [List.map_cons, if_pos hk, List.find?_cons_of_pos]
      simp
    · rw [List.map_cons, if_neg hk, find?_cons_neg' (fun kv => kv.1 == k) kv _ hk]
      apply ih
      simp only [List.any_cons, hk, Bool.false_or] at hc
      exact hc

theorem histGet_histSet_self (h : ChatHistory) (k : String) (v : List ChatMessage) :
    histGet (histSet h k v) k = v := by
  unfold histGet histSet
  by_cases hc : h.any (fun kv => kv.1 == k) = true
  · rw [if_pos hc, find?_replace h k v hc]
  · rw [if_neg hc, List.find?_append]
    have hnone : h.find? (fun kv => kv.1 == k) = none := by
      rw [List.find?_eq_none]
      intro x hx hpx
      exact hc (List.any_eq_true.mpr ⟨x, hx, hpx⟩)
    simp [hnone]

theorem find?_map_replace_other (h : ChatHistory) (k k' : String) (v : List ChatMessage)
    (hne : k' ≠ k) :
    (h.map (fun kv => if kv.1 == k then (k, v) else kv)).find? (fun kv => kv.1 == k') =
      h.find? (fun kv => kv.1 == k') := by
  induction h with
  | nil => rfl
  | cons kv rest ih =>
    by_cases hk : (kv.1 == k) = true
    · have hkk : kv.1 = k := by simpa using hk
      have hk1 : ¬ ((((k : String), v)).1 == k') = true := by
        simp
        exact fun hh => hne hh.symm
      have hk2 : ¬ (kv.1 == k') = true := by
        rw [hkk]
        simp
        exact fun hh => hne hh.symm
      rw [List.map_cons, if_pos hk, find?_cons_neg' (fun kv => kv.1 == k') (k, v) _ hk1,
          find?_cons_neg' (fun kv => kv.1 == k') kv _ hk2]
      exact ih
    · rw [List.map_cons, if_neg hk]
      by_cases hk2 : (kv.1 == k') = true
      · rw [find?_cons_pos' (fun kv => kv.1 == k') kv _ hk2,
            find?_cons_pos' (fun kv => kv.1 == k') kv _ hk2]
      · rw [find?_cons_neg' (fun kv => kv.1 == k') kv _ hk2,
            find?_cons_neg' (fun kv => kv.1 == k') kv _ hk2]
        exact ih

theorem histGet_histSet_other (h : ChatHistory) (k k' : String) (v : List ChatMessage)
    (hne : k' ≠ k) : histGet (histSet h k v) k' = histGet h k' := by
  unfold histGet histSet
  by_cases hc : h.any (fun kv => kv.1 == k) = true
  · rw [if_pos hc, find?_map_replace_other h k k' v hne]
  · rw [if_neg hc, List.find?_append]
    have hlast : ([((k : String), v)].find? (fun kv => kv.1 == k')) = none := by
      simp
      exact fun hh => hne hh.symm
    rw [hlast]
    cases h.find? (fun kv => kv.1 == k') <;> rfl

theorem histGet_updateChat_self (h : ChatHistory) (k : String) (m : ChatMessage) :
    histGet (updateChat h k m) k = histGet h k ++ [m] := by
  unfold updateChat
  exact histGet_histSet_self h k _

theorem histGet_updateChat_other (h : ChatHistory) (k k' : String) (m : ChatMessage)
    (hne : k' ≠ k) : histGet (updateChat h k m) k' = histGet h k' := by
  unfold updateChat
  exact histGet_histSet_other h k k' _ hne

theorem findNotebook_map_update (l : List Notebook) (id : String) (g : Notebook → Notebook)
    (hg : ∀ n, (g n).id = n.id) :
    findNotebook (l.map (fun n => if n.id == id then g n else n)) id =
      (findNotebook l id).map g := by
  unfold findNotebook
  induction l with
  | nil => rfl
  | cons n rest ih =>
    by_cases hn : (n.id == id) = true
    · have hgn : ((g n).id == id) = true := by
        rw [hg n]; exact hn
      rw [List.map_cons, if_pos hn, find?_cons_pos' (fun n => n.id == id) (g n) _ hgn,
          find?_cons_pos' (fun n => n.id == id) n _ hn, Option.map_some']
    · rw [List.map_cons, if_neg hn, find?_cons_neg' (fun n => n.id == id) n _ hn,
          find?_cons_neg' (fun n => n.id == id) n _ hn]
      exact ih

theorem findNotebook_map_update_other (l : List Notebook) (id other : String)
    (g : Notebook → Notebook) (hg : ∀ n, (g n).id = n.id) (hne : other ≠ id) :
    findNotebook (l.map (fun n => if n.id == id then g n else n)) other =
      findNotebook l other := by
  unfold findNotebook
  induction l with
  | nil => rfl
  | cons n rest ih =>
    by_cases hn : (n.id == id) = true
    · have hnid : n.id = id := by simpa using hn
      have h1 : ¬ ((g n).id == other) = true := by
        rw [hg n, hnid]
        simp
        exact fun hh => hne hh.symm
      have h2 : ¬ (n.id == other) = true := by
        rw [hnid]
        simp
        exact fun hh => hne hh.symm
      rw [List.map_cons, if_pos hn, find?_cons_neg' (fun n => n.id == other) (g n) _ h1,
          find?_cons_neg' (fun n => n.id == other) n _ h2]
      exact ih
    · rw [List.map_cons, if_neg hn]
      by_cases h2 : (n.id == other) = true
      · rw [find?_cons_pos' (fun n => n.id == other) n _ h2,
            find?_cons_pos' (fun n => n.id == other) n _ h2]
      · rw [find?_cons_neg' (fun n => n.id == other) n _ h2,
            find?_cons_neg' (fun n => n.id == other) n _ h2]
        exact ih

theorem jsonDepthFields_le (k : Nat) (fields : List (String × Json))
    (h : ∀ f ∈ fields, jsonDepth f.2 ≤ k) : jsonDepthFields fields ≤ k := by
  induction fields with
  | nil => simp [jsonDepthFields]
  | cons f fs ih =>
    rw [jsonDepthFields]
    exact max_le (h f (List.mem_cons_self f fs)) (ih (fun g hg => h g (List.mem_cons_of_mem f hg)))

theorem jsonDepthList_le (k : Nat) (elements : List Json)
    (h : ∀ x ∈ elements, jsonDepth x ≤ k) : jsonDepthList elements ≤ k := by
  induction elements with
  | nil => simp [jsonDepthList]
  | cons x xs ih =>
    rw [jsonDepthList]
    exact max_le (h x (List.mem_cons_self x xs)) (ih (fun y hy => h y (List.mem_cons_of_mem x hy)))

theorem mindMapNodeSchemaL5_depth : ∀ v, mindMapNodeSchemaL5 v = true → jsonDepth v ≤ 1 := by
  intro v h
  cases v with
  | str s => simp [mindMapNodeSchemaL5] at h
  | num n => simp [mindMapNodeSchemaL5] at h
  | arr elements => simp [mindMapNodeSchemaL5] at h
  | obj fields =>
    rw [mindMapNodeSchemaL5, Bool.and_eq_true, List.all_eq_true] at h
    obtain ⟨-, hall⟩ := h
    have hf : ∀ f ∈ fields, jsonDepth f.2 ≤ 0 := by
      intro f hfmem
      have hstr := hall f hfmem
      rw [Bool.and_eq_true] at hstr
      cases hfv : f.2 with
      | str s => simp [jsonDepth]
      | num n => rw [hfv] at hstr; simp [isStringJson] at hstr
      | arr elements => rw [hfv] at hstr; simp [isStringJson] at hstr
      | obj fs => rw [hfv] at hstr; simp [isStringJson] at hstr
    have := jsonDepthFields_le 0 fields hf
    rw [jsonDepth]
    omega

theorem schemaNodeWith_depth (childAccepts : Json → Bool) (k : Nat)
    (hchild : ∀ v, childAccepts v = true → jsonDepth v ≤ k) :
    ∀ v, schemaNodeWith childAccepts v = true → jsonDepth v ≤ k + 1 := by
  intro v h
  cases v with
  | str s => simp [schemaNodeWith] at h
  | num n => simp [schemaNodeWith] at h
  | arr elements => simp [schemaNodeWith] at h
  | obj fields =>
    rw [schemaNodeWith, Bool.and_eq_true, List.all_eq_true] at h
    obtain ⟨-, hall⟩ := h
    have hf : ∀ f ∈ fields, jsonDepth f.2 ≤ k := by
      intro f hfmem
      have hfield := hall f hfmem
      by_cases ht : (f.1 == "topic") = true
      · rw [if_pos ht] at hfield
        cases hfv : f.2 with
        | str s => simp [jsonDepth]
        | num n => rw [hfv] at hfield; simp [isStringJson] at hfield
        | arr elements => rw [hfv] at hfield; simp [isStringJson] at hfield
        | obj fs => rw [hfv] at hfield; simp [isStringJson] at hfield
      · rw [if_neg ht] at hfield
        by_cases hch : (f.1 == "children") = true
        · rw [if_pos hch] at hfield
          cases hfv : f.2 with
          | str s => rw [hfv] at hfield; simp at hfield
          | num n => rw [hfv] at hfield; simp at hfield
          | obj fs => rw [hfv] at hfield; simp at hfield
          | arr elements =>
            rw [hfv] at hfield
            rw [List.all_eq_true] at hfield
            rw [jsonDepth]
            exact jsonDepthList_le k elements (fun x hx => hchild x (hfield x hx))
        · rw [if_neg hch] at hfield
          simp at hfield
    have := jsonDepthFields_le k fields hf
    rw [jsonDepth]
    omega

theorem mindMapNodeSchemaL4_depth : ∀ v, mindMapNodeSchemaL4 v = true → jsonDepth v ≤ 2 :=
  schemaNodeWith_depth mindMapNodeSchemaL5 1 mindMapNodeSchemaL5_depth

theorem mindMapNodeSchemaL3_depth : ∀ v, mindMapNodeSchemaL3 v = true → jsonDepth v ≤ 3 :=
  schemaNodeWith_depth mindMapNodeSchemaL4 2 mindMapNodeSchemaL4_depth

theorem mindMapNodeSchemaL2_depth : ∀ v, mindMapNodeSchemaL2 v = true → jsonDepth v ≤ 4 :=
  schemaNodeWith_depth mindMapNodeSchemaL3 3 mindMapNodeSchemaL3_depth

theorem mindMapNodeSchemaL1_depth : ∀ v, mindMapNodeSchemaL1 v = true → jsonDepth v ≤ 5 :=
  schemaNodeWith_depth mindMapNodeSchemaL2 4 mindMapNodeSchemaL2_depth

theorem mindMapSchema_depth_le : ∀ v, mindMapSchema v = true → jsonDepth v ≤ 6 :=
  schemaNodeWith_depth mindMapNodeSchemaL1 5 mindMapNodeSchemaL1_depth

theorem mindMapNodeSchemaL5_no_children : ∀ v, mindMapNodeSchemaL5 v = true →
    hasChildrenField v = false := by
  intro v h
  cases v with
  | str s => rfl
  | num n => rfl
  | arr elements => rfl
  | obj fields =>
    rw [mindMapNodeSchemaL5, Bool.and_eq_true, List.all_eq_true] at h
    obtain ⟨-, hall⟩ := h
    rw [hasChildrenField]
    rw [List.any_eq_false]
    intro f hfmem
    have := hall f hfmem
    rw [Bool.and_eq_true] at this
    have htopic : f.1 = "topic" := by simpa using this.1
    rw [htopic]
    simp

theorem sendStart_some (st : AppState) (message : String) (type : IntentType) (now : Nat)
    (nb : Notebook) (hactive : activeNotebookOf st = some nb) (hidle : st.isLoading = false) :
    sendStart st message type now =
      some ({ st with
                isLoading := true
                chatHistory := updateChat st.chatHistory nb.id (userMessageOf now message) },
            { notebookId := nb.id, intentType := type, message := message,
              sources := nb.sources, msgId := msgIdOf (now + 1) }) := by
  unfold sendStart
  rw [hactive, hidle]
  simp

theorem sendStart_busy (st : AppState) (message : String) (type : IntentType) (now : Nat)
    (hbusy : st.isLoading = true) : sendStart st message type now = none := by
  unfold sendStart
  cases hact : activeNotebookOf st with
  | none => rfl
  | some nb => rw [hbusy]; simp

theorem handleSendMessage_busy (st : AppState) (message : String) (type : IntentType)
    (now : Nat) (b : BackendBehavior) (now2 : Nat) (hbusy : st.isLoading = true) :
    handleSendMessage st message type now b now2 = (st, []) := by
  unfold handleSendMessage
  rw [sendStart_busy st message type now hbusy]

theorem sendStart_sets_busy (st : AppState) (message : String) (type : IntentType) (now : Nat)
    (st1 : AppState) (call : PendingCall)
    (h : sendStart st message type now = some (st1, call)) :
    st.isLoading = false ∧ st1.isLoading = true := by
  unfold sendStart at h
  cases hact : activeNotebookOf st with
  | none => rw [hact] at h; simp at h
  | some nb =>
    rw [hact] at h
    by_cases hl : st.isLoading = true
    · rw [hl] at h; simp at h
    · have hl' : st.isLoading = false := by
        cases hb : st.isLoading
        · rfl
        · exact absurd hb hl
      rw [hl'] at h
      simp at h
      refine ⟨hl', ?_⟩
      rw [← h.1]

theorem sendFinish_clears_busy (st : AppState) (call : PendingCall) (b : BackendBehavior)
    (now2 : Nat) : (sendFinish st call b now2).1.isLoading = false := by
  unfold sendFinish
  cases runIntent call.intentType b now2 <;> rfl

theorem findNotebook_id (l : List Notebook) (id : String) (nb : Notebook)
    (h : findNotebook l id = some nb) : nb.id = id := by
  unfold findNotebook at h
  have := List.find?_some h
  simpa using this

theorem handleAddSource_find (st : AppState) (notebookId title content : String)
    (type : SourceType) (now : Nat) :
    findNotebook (handleAddSourceToNotebook st notebookId title content type now).notebooks
        notebookId =
      (findNotebook st.notebooks notebookId).map
        (fun n => { n with sources := n.sources ++ [mkNewSource title content type now] }) := by
  unfold handleAddSourceToNotebook
  exact findNotebook_map_update st.notebooks notebookId _ (fun n => rfl)

theorem runAddSources_find (notebookId : String) (calls : List AddSourceCall) :
    ∀ (st : AppState) (nb : Notebook), findNotebook st.notebooks notebookId = some nb →
      findNotebook (runAddSources st notebookId calls).notebooks notebookId =
        some { nb with
                 sources := nb.sources ++
                   calls.map (fun c => mkNewSource c.title c.content c.type c.now) } := by
  induction calls with
  | nil =>
    intro st nb h
    simpa [runAddSources] using h
  | cons c cs ih =>
    intro st nb h
    have hstep := handleAddSource_find st notebookId c.title c.content c.type c.now
    rw [h, Option.map_some'] at hstep
    have := ih (handleAddSourceToNotebook st notebookId c.title c.content c.type c.now)
      { nb with sources := nb.sources ++ [mkNewSource c.title c.content c.type c.now] } hstep
    rw [runAddSources] at this ⊢
    rw [List.foldl_cons]
    rw [this]
    congr 2
    simp [List.append_assoc]

theorem runAddSources_find_other (notebookId other : String) (calls : List AddSourceCall)
    (hne : other ≠ notebookId) :
    ∀ st : AppState, findNotebook (runAddSources st notebookId calls).notebooks other =
      findNotebook st.notebooks other := by
  induction calls with
  | nil => intro st; rfl
  | cons c cs ih =>
    intro st
    rw [runAddSources, List.foldl_cons, ← runAddSources]
    rw [ih]
    unfold handleAddSourceToNotebook
    exact findNotebook_map_update_other st.notebooks notebookId other _ (fun n => rfl) hne

theorem filter_ne_length (items : List SavedItem) (itemId : String)
    (hnd : (items.map (fun it => it.id)).Nodup) :
    (items.filter (fun it => it.id != itemId)).length =
      if items.any (fun it => it.id == itemId) then items.length - 1 else items.length := by
  induction items with
  | nil => simp
  | cons i rest ih =>
    rw [List.map_cons, List.nodup_cons] at hnd
    obtain ⟨hnotin, hndrest⟩ := hnd
    by_cases hi : (i.id == itemId) = true
    · have hiid : i.id = itemId := by simpa using hi
      have hfrest : rest.filter (fun it => it.id != itemId) = rest := by
        rw [List.filter_eq_self]
        intro it hit
        have hne2 : it.id ≠ itemId := by
          intro heq
          apply hnotin
          rw [hiid, ← heq]
          exact List.mem_map_of_mem _ hit
        simpa using hne2
      rw [List.filter_cons, if_neg (by simp [hiid]), hfrest]
      rw [List.any_cons, hi, Bool.true_or]
      simp
    · have hne : (i.id != itemId) = true := by simpa using hi
      have hi' : (i.id == itemId) = false := by
        cases hb : (i.id == itemId)
        · rfl
        · exact absurd hb hi
      rw [List.filter_cons, if_pos hne]
      rw [List.any_cons, hi', Bool.false_or]
      rw [List.length_cons, ih hndrest]
      by_cases hany : rest.any (fun it => it.id == itemId) = true
      · rw [if_pos hany, if_pos hany]
        have hpos : 0 < rest.length := by
          rw [List.any_eq_true] at hany
          obtain ⟨x, hx, -⟩ := hany
          exact List.length_pos_of_mem hx
        rw [List.length_cons]
        omega
      · have hany' : (rest.any fun it => it.id == itemId) = false := by
          cases hb : rest.any (fun it => it.id == itemId)
          · rfl
          · exact absurd hb hany
        rw [hany']
        simp

theorem libRun_spec (notebookId : String) :
    ∀ (ops : List LibOp) (items : List SavedItem),
      (items.map (fun it => it.id)).Nodup →
      (∀ now ∈ saveNows ops, savedIdOf now ∉ items.map (fun it => it.id)) →
      (saveNows ops).Nodup →
      ((ops.foldl (libStep notebookId) items).length + matchingDeletes notebookId items ops =
          items.length + numSaves ops) ∧
      ((ops.foldl (libStep notebookId) items).map (fun it => it.id)).Nodup ∧
      (∀ it ∈ ops.foldl (libStep notebookId) items, it ∈ items ∨ it.notebookId = notebookId) := by
  intro ops
  induction ops with
  | nil =>
    intro items h1 h2 h3
    refine ⟨by simp [matchingDeletes, numSaves], by simpa using h1, fun it hit => Or.inl hit⟩
  | cons op rest ih =>
    intro items h1 h2 h3
    cases op with
    | save d now =>
      have hstep : libStep notebookId items (.save d now) =
          items ++ [mkSavedItem notebookId d now] := rfl
      have hids : (items ++ [mkSavedItem notebookId d now]).map (fun it => it.id) =
          items.map (fun it => it.id) ++ [savedIdOf now] := by
        simp [mkSavedItem]
      have hnowmem : now ∈ saveNows (.save d now :: rest) := by
        rw [saveNows]; exact List.mem_cons_self now _
      have hfresh : savedIdOf now ∉ items.map (fun it => it.id) := h2 now hnowmem
      have h1' : ((items ++ [mkSavedItem notebookId d now]).map (fun it => it.id)).Nodup := by
        rw [hids]
        rw [List.nodup_append]
        exact ⟨h1, List.nodup_singleton _, by
          intro x hx hxmem
          rw [List.mem_singleton] at hxmem
          rw [hxmem] at hx
          exact hfresh hx⟩
      have hsavetail : saveNows (.save d now :: rest) = now :: saveNows rest := rfl
      have h3head : now ∉ saveNows rest := by
        have := h3
        rw [hsavetail, List.nodup_cons] at this
        exact this.1
      have h3' : (saveNows rest).Nodup := by
        have := h3
        rw [hsavetail, List.nodup_cons] at this
        exact this.2
      have h2' : ∀ now' ∈ saveNows rest,
          savedIdOf now' ∉ (items ++ [mkSavedItem notebookId d now]).map (fun it => it.id) := by
        intro now' hmem
        rw [hids, List.mem_append, List.mem_singleton]
        rintro (hcase | hcase)
        · exact h2 now' (by rw [hsavetail]; exact List.mem_cons_of_mem now hmem) hcase
        · have : now' = now := savedIdOf_injective hcase
          rw [this] at hmem
          exact h3head hmem
      obtain ⟨ihl, ihn, iho⟩ := ih (items ++ [mkSavedItem notebookId d now]) h1' h2' h3'
      refine ⟨?_, ?_, ?_⟩
      · rw [List.foldl_cons]
        have hmd : matchingDeletes notebookId items (.save d now :: rest) =
            matchingDeletes notebookId (items ++ [mkSavedItem notebookId d now]) rest := by
          rw [matchingDeletes]
          simp [libStep]
        have hns : numSaves (.save d now :: rest) = 1 + numSaves rest := rfl
        rw [hstep] at *
        rw [hmd, hns]
        rw [List.length_append] at ihl
        simp only [List.length_singleton] at ihl
        omega
      · rw [List.foldl_cons, hstep]
        exact ihn
      · intro it hit
        rw [List.foldl_cons, hstep] at hit
        rcases iho it hit with hin | hnb
        · rw [List.mem_append, List.mem_singleton] at hin
          rcases hin with hin | heq
          · exact Or.inl hin
          · exact Or.inr (by rw [heq]; rfl)
        · exact Or.inr hnb
    | delete itemId =>
      have hstep : libStep notebookId items (.delete itemId) =
          items.filter (fun it => it.id != itemId) := rfl
      have hsub : List.Sublist ((items.filter (fun it => it.id != itemId)).map (fun it => it.id))
          (items.map (fun it => it.id)) :=
        List.Sublist.map _ (List.filter_sublist items)
      have h1' : ((items.filter (fun it => it.id != itemId)).map (fun it => it.id)).Nodup :=
        List.Nodup.sublist hsub h1
      have h2' : ∀ now' ∈ saveNows rest,
          savedIdOf now' ∉ (items.filter (fun it => it.id != itemId)).map (fun it => it.id) := by
        intro now' hmem hcontra
        exact h2 now' (by rw [show saveNows (.delete itemId :: rest) = saveNows rest from rfl] at *
                          exact hmem)
          (hsub.subset hcontra)
      have h3' : (saveNows rest).Nodup := h3
      obtain ⟨ihl, ihn, iho⟩ := ih (items.filter (fun it => it.id != itemId)) h1' h2' h3'
      refine ⟨?_, ?_, ?_⟩
      · rw [List.foldl_cons]
        have hmd : matchingDeletes notebookId items (.delete itemId :: rest) =
            (if items.any (fun it => it.id == itemId) then 1 else 0) +
              matchingDeletes notebookId (items.filter (fun it => it.id != itemId)) rest := rfl
        have hns : numSaves (.delete itemId :: rest) = numSaves rest := rfl
        rw [hstep, hmd, hns]
        have hflen := filter_ne_length items itemId h1
        by_cases hany : items.any (fun it => it.id == itemId) = true
        · have hpos : 0 < items.length := by
            rw [List.any_eq_true] at hany
            obtain ⟨x, hx, -⟩ := hany
            exact List.length_pos_of_mem hx
          rw [if_pos hany] at hflen ⊢
          rw [hflen] at ihl
          omega
        · have hany' : (items.any fun it => it.id == itemId) = false := by
            cases hb : items.any (fun it => it.id == itemId)
            · rfl
            · exact absurd hb hany
          rw [hany'] at hflen ⊢
          rw [if_neg (by simp)] at hflen ⊢
          rw [hflen] at ihl
          omega
      · rw [List.foldl_cons, hstep]
        exact ihn
      · intro it hit
        rw [List.foldl_cons, hstep] at hit
        rcases iho it hit with hin | hnb
        · exact Or.inl (List.mem_of_mem_filter hin)
        · exact Or.inr hnb

theorem handleSave_find (st : AppState) (notebookId : String) (d : SaveItemData) (now : Nat) :
    findNotebook (handleSaveItemToNotebook st notebookId d now).notebooks notebookId =
      (findNotebook st.notebooks notebookId).map
        (fun n => { n with savedItems := some (savedItemsOf n ++ [mkSavedItem notebookId d now]) }) := by
  unfold handleSaveItemToNotebook
  exact findNotebook_map_update st.notebooks notebookId _ (fun n => rfl)

theorem handleDeleteSavedItem_find (st : AppState) (notebookId itemId : String) :
    findNotebook (handleDeleteSavedItem st notebookId itemId).notebooks notebookId =
      (findNotebook st.notebooks notebookId).map
        (fun n => { n with savedItems := some ((savedItemsOf n).filter (fun item => item.id != itemId)) }) := by
  unfold handleDeleteSavedItem
  exact findNotebook_map_update st.notebooks notebookId _ (fun n => rfl)

theorem runLibOps_saved (notebookId : String) (ops : List LibOp) :
    ∀ (st : AppState) (nb : Notebook), findNotebook st.notebooks notebookId = some nb →
      (findNotebook (runLibOps st notebookId ops).notebooks notebookId).map savedItemsOf =
        some (ops.foldl (libStep notebookId) (savedItemsOf nb)) := by
  induction ops with
  | nil =>
    intro st nb h
    rw [runLibOps, List.foldl_nil, h, Option.map_some']
    rfl
  | cons op rest ih =>
    intro st nb h
    cases op with
    | save d now =>
      have hstep := handleSave_find st notebookId d now
      rw [h, Option.map_some'] at hstep
      have := ih (handleSaveItemToNotebook st notebookId d now)
        { nb with savedItems := some (savedItemsOf nb ++ [mkSavedItem notebookId d now]) } hstep
      rw [runLibOps] at this ⊢
      rw [List.foldl_cons]
      exact this
    | delete itemId =>
      have hstep := handleDeleteSavedItem_find st notebookId itemId
      rw [h, Option.map_some'] at hstep
      have := ih (handleDeleteSavedItem st notebookId itemId)
        { nb with savedItems := some ((savedItemsOf nb).filter (fun item => item.id != itemId)) } hstep
      rw [runLibOps] at this ⊢
      rw [List.foldl_cons]
      exact this

theorem handleDeleteSavedItem_idem (st : AppState) (notebookId itemId : String) :
    handleDeleteSavedItem (handleDeleteSavedItem st notebookId itemId) notebookId itemId =
      handleDeleteSavedItem st notebookId itemId := by
  unfold handleDeleteSavedItem
  congr 1
  rw [List.map_map]
  apply List.map_congr_left
  intro n _
  have key : List.filter (fun item => item.id != itemId)
      (List.filter (fun item => item.id != itemId) (savedItemsOf n)) =
      List.filter (fun item => item.id != itemId) (savedItemsOf n) := by
    rw [List.filter_filter]
    apply List.filter_congr
    intro a _
    exact Bool.and_self _
  by_cases hn : (n.id == notebookId) = true
  · simp only [Function.comp_apply, if_pos hn]
    have hsv : savedItemsOf { n with savedItems := some ((savedItemsOf n).filter (fun item => item.id != itemId)) } = (savedItemsOf n).filter (fun item => item.id != itemId) := rfl
    rw [hsv, key]
  · simp only [Function.comp_apply, if_neg hn]

theorem singleFlight_step (c c' : OrchConfig) (hinv : SingleFlightInv c)
    (hstep : OrchStep c c') : SingleFlightInv c' := by
  cases hstep with
  | start c message type now st1 call h =>
    obtain ⟨hidle, hbusy1⟩ := sendStart_sets_busy c.st message type now st1 call h
    have hpemp : c.pending = [] := by
      by_contra hne
      have := hinv.2 hne
      rw [this] at hidle
      exact Bool.true_eq_false.mp hidle
    constructor
    · show (c.pending ++ [call]).length ≤ 1
      rw [hpemp]
      simp
    · intro _
      exact hbusy1
  | refused c message type now h => exact hinv
  | settle st call rest b now2 =>
    have hrest : rest = [] := by
      have := hinv.1
      simp only [List.length_cons] at this
      exact List.eq_nil_of_length_eq_zero (by omega)
    constructor
    · rw [hrest]
      simp
    · intro hne
      rw [hrest] at hne
      exact absurd rfl hne

theorem singleFlight_reaches (c c' : OrchConfig) (hinv : SingleFlightInv c)
    (h : OrchReaches c c') : SingleFlightInv c' := by
  induction h with
  | refl => exact hinv
  | tail hr hs ih => exact singleFlight_step _ _ ih hs

theorem handleSendMessage_accepted (st : AppState) (message : String) (type : IntentType)
    (now : Nat) (b : BackendBehavior) (now2 : Nat) (nb : Notebook)
    (hactive : activeNotebookOf st = some nb) (hidle : st.isLoading = false) :
    handleSendMessage st message type now b now2 =
      (match runIntent type b now2 with
       | .ok reply =>
         ({ st with
              isLoading := false
              chatHistory := updateChat
                (updateChat st.chatHistory nb.id (userMessageOf now message)) nb.id
                { id := msgIdOf (now + 1), role := .model, text := reply.text,
                  contentType := reply.contentType, contentData := reply.contentData } },
          [.appendUser nb.id (userMessageOf now message), .backendCall type nb.sources,
           .appendModel nb.id
             { id := msgIdOf (now + 1), role := .model, text := reply.text,
               contentType := reply.contentType, contentData := reply.contentData }])
       | .err _ =>
         ({ st with
              isLoading := false
              chatHistory := updateChat
                (updateChat st.chatHistory nb.id (userMessageOf now message)) nb.id
                (errorMessageOf now2) },
          [.appendUser nb.id (userMessageOf now message), .backendCall type nb.sources,
           .appendError nb.id (errorMessageOf now2)])) := by
  unfold handleSendMessage
  rw [sendStart_some st message type now nb hactive hidle]
  unfold sendFinish
  dsimp only
  cases hri : runIntent type b now2 with
  | ok reply => rfl
  | err e => rfl

/-- Whether an orchestrator event is a backend call. -/
def isBackendCallEvent : OrchEvent → Bool
  | .backendCall _ _ => true
  | _ => false

/-- The quiz questions stored in a message's `contentData`, if any. -/
def quizQuestionsOf (m : ChatMessage) : List QuizQuestion :=
  match m.contentData with
  | some (.quiz qs) => qs
  | _ => []

/-- A sample source. -/
def sampleSource : Source :=
  { id := "source_0", type := .text, title := "Doc",
    content := "Paris is the capital of France." }

/-- A notebook holding one source. -/
def sampleNotebook : Notebook :=
  { id := "nb1", title := "T", sources := [sampleSource], createdAt := "t0",
    savedItems := some [] }

/-- A notebook with zero sources. -/
def emptyNotebook : Notebook :=
  { id := "nb0", title := "Empty", sources := [], createdAt := "t0", savedItems := some [] }

/-- App state whose active notebook holds one source, idle. -/
def stWithSource : AppState :=
  { notebooks := [sampleNotebook], activeNotebookId := some "nb1", chatHistory := [],
    isLoading := false }

/-- App state whose active notebook has zero sources, idle. -/
def stNoSources : AppState :=
  { notebooks := [emptyNotebook], activeNotebookId := some "nb0", chatHistory := [],
    isLoading := false }

/-- App state with a request already in flight. -/
def stBusy : AppState :=
  { notebooks := [sampleNotebook], activeNotebookId := some "nb1", chatHistory := [],
    isLoading := true }

/-- A backend on which every call fails. -/
def failingBackend : BackendBehavior :=
  { chat := .err "Network error", summary := .err "Network error", quiz := .err "Network error",
    flashcards := .err "Network error", faq := .err "Network error",
    timeline := .err "Network error", podcast := .err "Network error",
    ideas := .err "Network error", critique := .err "Network error",
    mindmap := .err "Network error", debate := .err "Network error" }

/-- A quiz question whose correct answer is not among its options. -/
def badQuizQuestion : QuizQuestion :=
  { question := "Which city is the capital of France?", options := ["London", "Berlin"],
    correctAnswer := "Paris" }

/-- A backend whose quiz call resolves with the ill-formed question. -/
def badQuizBackend : BackendBehavior :=
  { failingBackend with quiz := .ok [badQuizQuestion] }

/-- A backend whose quiz call resolves with a well-formed question. -/
def goodQuizQuestion : QuizQuestion :=
  { question := "Which city is the capital of France?",
    options := ["London", "Berlin", "Paris", "Madrid"], correctAnswer := "Paris" }

/-- A backend returning one well-formed quiz question. -/
def goodQuizBackend : BackendBehavior :=
  { failingBackend with quiz := .ok [goodQuizQuestion] }

/-- Claim C1 (amended): zero-source rejection is enforced only by the
ChatView UI layer — every submission control is disabled when the active
notebook has no sources — while the Orchestrator (`handleSendMessage`)
itself checks only the active notebook and the busy flag: invoked with a
zero-source active notebook it appends the user message and issues the
backend call (with an empty source list) rather than rejecting. -/
theorem C1_no_sources_not_rejected_at_orchestrator
    (st : AppState) (message input : String) (type : IntentType) (now : Nat)
    (b : BackendBehavior) (now2 : Nat) (nb : Notebook)
    (hactive : activeNotebookOf st = some nb)
    (hempty : nb.sources = [])
    (hidle : st.isLoading = false) :
    textareaDisabled nb st.isLoading = true ∧
    sendButtonDisabled input nb st.isLoading = true ∧
    specialActionDisabled nb st.isLoading = true ∧
    (∃ rest, (handleSendMessage st message type now b now2).2 =
      .appendUser nb.id (userMessageOf now message) :: .backendCall type [] :: rest) ∧
    (∃ m, histGet (handleSendMessage st message type now b now2).1.chatHistory nb.id =
      histGet st.chatHistory nb.id ++ [userMessageOf now message, m]) := by
  have hmain := handleSendMessage_accepted st message type now b now2 nb hactive hidle
  refine ⟨?_, ?_, ?_, ?_, ?_⟩
  · simp [textareaDisabled, hasSources, hempty, hidle]
  · simp [sendButtonDisabled, hasSources, hempty, hidle]
  · simp [specialActionDisabled, hasSources, hempty, hidle]
  · rw [hmain]
    cases hri : runIntent type b now2 with
    | ok reply =>
      dsimp only
      rw [hempty]
      exact ⟨_, rfl⟩
    | err e =>
      dsimp only
      rw [hempty]
      exact ⟨_, rfl⟩
  · rw [hmain]
    cases hri : runIntent type b now2 with
    | ok reply =>
      dsimp only
      refine ⟨{ id := msgIdOf (now + 1), role := .model, text := reply.text,
                contentType := reply.contentType, contentData := reply.contentData }, ?_⟩
      rw [histGet_updateChat_self, histGet_updateChat_self]
      simp
    | err e =>
      dsimp only
      refine ⟨errorMessageOf now2, ?_⟩
      rw [histGet_updateChat_self, histGet_updateChat_self]
      simp

/-- Claim C1 counterexample: in the concrete idle state whose active
notebook has zero sources, submitting a `chat` intent to the Orchestrator
does issue a backend call and does change the conversation log (it grows
from 0 to 2 messages), contradicting the claimed boundary rejection. -/
theorem C1_no_sources_counterexample :
    (handleSendMessage stNoSources "hello" .chat 0 failingBackend 1).2.any
        isBackendCallEvent = true ∧
    (histGet (handleSendMessage stNoSources "hello" .chat 0 failingBackend 1).1.chatHistory
        "nb0").length = 2 ∧
    (histGet stNoSources.chatHistory "nb0").length = 0 :=
  ⟨by decide, by decide, by decide⟩

/-- Claim C1 witness: the amended theorem applied at a concrete state. -/
theorem C1_no_sources_witness :
    textareaDisabled emptyNotebook stNoSources.isLoading = true ∧
    sendButtonDisabled "hi" emptyNotebook stNoSources.isLoading = true ∧
    specialActionDisabled emptyNotebook stNoSources.isLoading = true ∧
    (∃ rest, (handleSendMessage stNoSources "hi" .quiz 0 failingBackend 1).2 =
      .appendUser emptyNotebook.id (userMessageOf 0 "hi") :: .backendCall .quiz [] :: rest) ∧
    (∃ m, histGet (handleSendMessage stNoSources "hi" .quiz 0 failingBackend 1).1.chatHistory
        emptyNotebook.id =
      histGet stNoSources.chatHistory emptyNotebook.id ++ [userMessageOf 0 "hi", m]) :=
  C1_no_sources_not_rejected_at_orchestrator stNoSources "hi" "hi" .quiz 0 failingBackend 1
    emptyNotebook rfl rfl rfl

/-- Claim C2: when the generation call of an accepted intent fails (any
failure kind), exactly one model message is appended after the user
message and it is the fixed ERROR message carrying no structured data;
the log grows by exactly 2, `notebooks`, the active-notebook pointer and
all other logs are unchanged, and the busy flag is cleared. -/
theorem C2_failure_appends_single_error
    (st : AppState) (message : String) (type : IntentType) (now : Nat)
    (b : BackendBehavior) (now2 : Nat) (nb : Notebook) (e : String)
    (hactive : activeNotebookOf st = some nb)
    (hidle : st.isLoading = false)
    (hfail : runIntent type b now2 = .err e) :
    histGet (handleSendMessage st message type now b now2).1.chatHistory nb.id =
        histGet st.chatHistory nb.id ++ [userMessageOf now message, errorMessageOf now2] ∧
    (histGet (handleSendMessage st message type now b now2).1.chatHistory nb.id).length =
        (histGet st.chatHistory nb.id).length + 2 ∧
    (errorMessageOf now2).role = .model ∧
    (errorMessageOf now2).contentType = .ERROR ∧
    (errorMessageOf now2).contentData = none ∧
    (userMessageOf now message).role = .user ∧
    (handleSendMessage st message type now b now2).1.notebooks = st.notebooks ∧
    (handleSendMessage st message type now b now2).1.activeNotebookId = st.activeNotebookId ∧
    (handleSendMessage st message type now b now2).1.isLoading = false ∧
    (∀ k, k ≠ nb.id →
      histGet (handleSendMessage st message type now b now2).1.chatHistory k =
        histGet st.chatHistory k) := by
  rw [handleSendMessage_accepted st message type now b now2 nb hactive hidle, hfail]
  dsimp only
  have hlog : histGet
      (updateChat (updateChat st.chatHistory nb.id (userMessageOf now message)) nb.id
        (errorMessageOf now2)) nb.id =
      histGet st.chatHistory nb.id ++ [userMessageOf now message, errorMessageOf now2] := by
    rw [histGet_updateChat_self, histGet_updateChat_self]
    simp
  refine ⟨hlog, ?_, rfl, rfl, rfl, rfl, rfl, rfl, rfl, ?_⟩
  · rw [hlog]
    simp
  · intro k hk
    rw [histGet_updateChat_other _ _ _ _ hk, histGet_updateChat_other _ _ _ _ hk]

/-- Claim C2 witness: the theorem applied at a concrete failing call. -/
theorem C2_failure_witness :
    histGet (handleSendMessage stWithSource "q" .chat 0 failingBackend 1).1.chatHistory
        sampleNotebook.id =
      histGet stWithSource.chatHistory sampleNotebook.id ++
        [userMessageOf 0 "q", errorMessageOf 1] :=
  (C2_failure_appends_single_error stWithSource "q" .chat 0 failingBackend 1 sampleNotebook
    "Network error" rfl rfl rfl).1

/-- Claim C3: for every accepted intent the user message (role `user`) is
appended synchronously: in the event trace it precedes the backend call,
and it is present in the final log right after the old log even when the
call fails. -/
theorem C3_user_message_appended_before_call
    (st : AppState) (message : String) (type : IntentType) (now : Nat)
    (b : BackendBehavior) (now2 : Nat) (nb : Notebook)
    (hactive : activeNotebookOf st = some nb)
    (hidle : st.isLoading = false) :
    (userMessageOf now message).role = .user ∧
    (∃ rest, (handleSendMessage st message type now b now2).2 =
      .appendUser nb.id (userMessageOf now message) :: .backendCall type nb.sources :: rest) ∧
    (∃ rest, histGet (handleSendMessage st message type now b now2).1.chatHistory nb.id =
      histGet st.chatHistory nb.id ++ userMessageOf now message :: rest) := by
  have hmain := handleSendMessage_accepted st message type now b now2 nb hactive hidle
  refine ⟨rfl, ?_, ?_⟩
  · rw [hmain]
    cases hri : runIntent type b now2 with
    | ok reply => exact ⟨_, rfl⟩
    | err e => exact ⟨_, rfl⟩
  · rw [hmain]
    cases hri : runIntent type b now2 with
    | ok reply =>
      dsimp only
      refine ⟨[{ id := msgIdOf (now + 1), role := .model, text := reply.text,
                 contentType := reply.contentType, contentData := reply.contentData }], ?_⟩
      rw [histGet_updateChat_self, histGet_updateChat_self]
      simp
    | err e =>
      dsimp only
      refine ⟨[errorMessageOf now2], ?_⟩
      rw [histGet_updateChat_self, histGet_updateChat_self]
      simp

/-- Claim C3 witness: the theorem applied at a concrete accepted intent. -/
theorem C3_user_message_witness :
    (userMessageOf 0 "hi").role = .user ∧
    (∃ rest, (handleSendMessage stWithSource "hi" .chat 0 failingBackend 1).2 =
      .appendUser sampleNotebook.id (userMessageOf 0 "hi") ::
        .backendCall .chat sampleNotebook.sources :: rest) ∧
    (∃ rest, histGet (handleSendMessage stWithSource "hi" .chat 0 failingBackend 1).1.chatHistory
        sampleNotebook.id =
      histGet stWithSource.chatHistory sampleNotebook.id ++ userMessageOf 0 "hi" :: rest) :=
  C3_user_message_appended_before_call stWithSource "hi" .chat 0 failingBackend 1 sampleNotebook
    rfl rfl

/-- Claim C4: at most one generation request is outstanding, gated by the
single process-wide busy flag: while `isLoading` is set, any submission
(whatever the active notebook) returns leaving the state unchanged and
issuing no events, `sendStart` refuses outright, and along every session
trace from a configuration satisfying the single-flight invariant at most
one pending call ever exists. -/
theorem C4_single_flight_busy_gate :
    (∀ (st : AppState) (message : String) (type : IntentType) (now : Nat)
       (b : BackendBehavior) (now2 : Nat), st.isLoading = true →
       handleSendMessage st message type now b now2 = (st, [])) ∧
    (∀ (st : AppState) (message : String) (type : IntentType) (now : Nat),
       st.isLoading = true → sendStart st message type now = none) ∧
    (∀ c c' : OrchConfig, SingleFlightInv c → OrchReaches c c' → c'.pending.length ≤ 1) :=
  ⟨handleSendMessage_busy, sendStart_busy,
   fun c c' hinv hr => (singleFlight_reaches c c' hinv hr).1⟩

/-- Claim C4 witness: the busy gate applied at a concrete busy state. -/
theorem C4_single_flight_witness :
    handleSendMessage stBusy "hi" .chat 0 failingBackend 1 = (stBusy, []) ∧
    sendStart stBusy "hi" .chat 0 = none ∧
    (⟨stBusy, []⟩ : OrchConfig).pending.length ≤ 1 :=
  ⟨C4_single_flight_busy_gate.1 stBusy "hi" .chat 0 failingBackend 1 rfl,
   C4_single_flight_busy_gate.2.1 stBusy "hi" .chat 0 rfl,
   C4_single_flight_busy_gate.2.2 ⟨stBusy, []⟩ ⟨stBusy, []⟩
     ⟨by simp, fun hne => absurd rfl hne⟩ (.refl _)⟩

/-- Claim C5 (amended): every `addSource` call appends exactly one new
Source built from its arguments, iteration order equals call order,
existing sources are never removed or reordered, and other notebooks are
untouched; the generated ids are unique provided no two calls observe the
same `Date.now()` millisecond (the ids are timestamp-derived, so calls
sharing a clock value collide). -/
theorem C5_addSource_append_order
    (st : AppState) (notebookId : String) (calls : List AddSourceCall) (nb : Notebook)
    (hfind : findNotebook st.notebooks notebookId = some nb) :
    (findNotebook (runAddSources st notebookId calls).notebooks notebookId =
      some { nb with
               sources := nb.sources ++
                 calls.map (fun c => mkNewSource c.title c.content c.type c.now) }) ∧
    (∀ other, other ≠ notebookId →
      findNotebook (runAddSources st notebookId calls).notebooks other =
        findNotebook st.notebooks other) ∧
    (nb.sources = [] → (calls.map (fun c => c.now)).Nodup →
      ((nb.sources ++ calls.map (fun c => mkNewSource c.title c.content c.type c.now)).map
        (fun s => s.id)).Nodup) := by
  refine ⟨runAddSources_find notebookId calls st nb hfind, ?_, ?_⟩
  · intro other hne
    exact runAddSources_find_other notebookId other calls hne st
  · intro hempty hnodup
    rw [hempty, List.nil_append, List.map_map]
    have heq : ((fun s => s.id) ∘ fun c => mkNewSource c.title c.content c.type c.now) =
        (fun c : AddSourceCall => sourceIdOf c.now) := rfl
    rw [heq]
    have heq2 : (fun c : AddSourceCall => sourceIdOf c.now) =
        (sourceIdOf ∘ fun c : AddSourceCall => c.now) := rfl
    rw [heq2, ← List.map_map]
    exact List.Nodup.map sourceIdOf_injective hnodup

/-- Claim C5 counterexample: two `addSource` calls that observe the same
`Date.now()` value (0) produce two sources with the identical id
`source_0`, so the resulting ids are not unique within the notebook. -/
theorem C5_duplicate_id_counterexample :
    ((findNotebook (runAddSources stNoSources "nb0"
        [⟨"A", "ca", .text, 0⟩, ⟨"B", "cb", .text, 0⟩]).notebooks "nb0").map
      (fun n => n.sources.map (fun s => s.id))) = some ["source_0", "source_0"] ∧
    ¬ (["source_0", "source_0"] : List String).Nodup :=
  ⟨by decide, by decide⟩

/-- Claim C5 witness: the amended theorem applied at a concrete call
sequence with distinct timestamps. -/
theorem C5_addSource_witness :
    (findNotebook (runAddSources stNoSources "nb0" [⟨"A", "ca", .text, 0⟩]).notebooks "nb0" =
      some { emptyNotebook with
               sources := emptyNotebook.sources ++
                 ([⟨"A", "ca", .text, 0⟩] : List AddSourceCall).map
                   (fun c => mkNewSource c.title c.content c.type c.now) }) ∧
    ((emptyNotebook.sources ++ ([⟨"A", "ca", .text, 0⟩] : List AddSourceCall).map
        (fun c => mkNewSource c.title c.content c.type c.now)).map (fun s => s.id)).Nodup :=
  have h := C5_addSource_append_order stNoSources "nb0" [⟨"A", "ca", .text, 0⟩] emptyNotebook rfl
  ⟨h.1, h.2.2 rfl (by decide)⟩

/-- The save / delete sequence of the C6 counterexample: two saves in the
same millisecond, then one delete of the shared id. -/
def collidingLibOps : List LibOp :=
  [.save ⟨.QUIZ, .plain "x", "t"⟩ 0, .save ⟨.QUIZ, .plain "x", "t"⟩ 0, .delete "saved_0"]

/-- The save / delete sequence of the C6 witness (distinct timestamps). -/
def libOpsW : List LibOp :=
  [.save ⟨.QUIZ, .plain "x", "t"⟩ 0, .delete "saved_0"]

/-- Claim C6 (amended): starting from a notebook with empty `savedItems`,
for every interleaving of save and delete calls whose save calls observe
pairwise-distinct `Date.now()` values, the resulting savedItems length
equals the number of saves minus the number of matching deletes, and
every remaining item belongs to the notebook (`item.notebookId = N.id`).
With colliding timestamps the length formula fails (see the
counterexample), because one delete then removes both copies. -/
theorem C6_savedItems_length_ownership
    (st : AppState) (notebookId : String) (ops : List LibOp) (nb : Notebook)
    (hfind : findNotebook st.notebooks notebookId = some nb)
    (hempty : savedItemsOf nb = [])
    (hnodup : (saveNows ops).Nodup) :
    ((findNotebook (runLibOps st notebookId ops).notebooks notebookId).map savedItemsOf =
      some (ops.foldl (libStep notebookId) [])) ∧
    (ops.foldl (libStep notebookId) []).length + matchingDeletes notebookId [] ops =
      numSaves ops ∧
    (ops.foldl (libStep notebookId) []).length =
      numSaves ops - matchingDeletes notebookId [] ops ∧
    (∀ item ∈ ops.foldl (libStep notebookId) [],
      item.notebookId = notebookId ∧ item.notebookId = nb.id) := by
  have hb := runLibOps_saved notebookId ops st nb hfind
  rw [hempty] at hb
  have hl := libRun_spec notebookId ops [] (by simp) (by simp) hnodup
  have hlen : (ops.foldl (libStep notebookId) []).length + matchingDeletes notebookId [] ops =
      numSaves ops := by
    have := hl.1
    simpa using this
  refine ⟨hb, hlen, by omega, ?_⟩
  intro item hitem
  rcases hl.2.2 item hitem with hin | hnb
  · exact absurd hin (List.not_mem_nil item)
  · refine ⟨hnb, ?_⟩
    rw [hnb, findNotebook_id st.notebooks notebookId nb hfind]

/-- Claim C6 counterexample: two saves sharing `Date.now() = 0` then one
matching delete leave 0 items, while the claimed formula k − matching
gives 2 − 1 = 1. -/
theorem C6_colliding_counterexample :
    ((findNotebook (runLibOps stNoSources "nb0" collidingLibOps).notebooks "nb0").map
      (fun n => (savedItemsOf n).length)) = some 0 ∧
    numSaves collidingLibOps = 2 ∧
    matchingDeletes "nb0" [] collidingLibOps = 1 ∧
    (2 : Nat) - 1 ≠ 0 :=
  ⟨by decide, rfl, by decide, by decide⟩

/-- Claim C6 witness: the amended theorem applied at a concrete
interleaving with distinct save timestamps. -/
theorem C6_savedItems_witness :
    ((findNotebook (runLibOps stNoSources "nb0" libOpsW).notebooks "nb0").map savedItemsOf =
      some (libOpsW.foldl (libStep "nb0") [])) ∧
    (libOpsW.foldl (libStep "nb0") []).length + matchingDeletes "nb0" [] libOpsW =
      numSaves libOpsW :=
  have h := C6_savedItems_length_ownership stNoSources "nb0" libOpsW emptyNotebook rfl rfl
    (by decide)
  ⟨h.1, h.2.1⟩

/-- Claim C7: the mind-map response schema (`mindMapSchema` with its
hand-unrolled levels `mindMapNodeSchemaL1` … `L5`) bounds nesting to the
root plus 5 nested levels of children — any accepted value has object
depth at most 6, the deepest level is topic-only (no `children` field),
the bound is attained, and a tree one level deeper is rejected — instead
of an unbounded recursive schema. -/
theorem C7_mindmap_schema_depth_bounded :
    (∀ v, mindMapSchema v = true → jsonDepth v ≤ 6) ∧
    (∀ v, mindMapNodeSchemaL5 v = true → hasChildrenField v = false) ∧
    (mindMapSchema (mindMapChain 6) = true ∧ jsonDepth (mindMapChain 6) = 6) ∧
    mindMapSchema (mindMapChain 7) = false :=
  ⟨mindMapSchema_depth_le, mindMapNodeSchemaL5_no_children, ⟨by decide, by decide⟩, by decide⟩

/-- Claim C7 witness: the depth bound and leaf shape applied at concrete
accepted values. -/
theorem C7_mindmap_schema_witness :
    jsonDepth (mindMapChain 6) ≤ 6 ∧ hasChildrenField (mindMapChain 1) = false :=
  ⟨C7_mindmap_schema_depth_bounded.1 (mindMapChain 6) (by decide),
   C7_mindmap_schema_depth_bounded.2.1 (mindMapChain 1) (by decide)⟩

/-- Claim C8 (amended): the Orchestrator stores the quiz payload exactly
as the generation call returned it, performing no membership validation;
the stored questions satisfy `correctAnswer ∈ options` precisely when the
backend payload does (in particular they do for well-formed payloads).
With an ill-formed payload the stored QUIZ message violates the
invariant (see the counterexample). -/
theorem C8_quiz_payload_stored_verbatim
    (st : AppState) (message : String) (now : Nat) (b : BackendBehavior) (now2 : Nat)
    (nb : Notebook) (qs : List QuizQuestion)
    (hactive : activeNotebookOf st = some nb)
    (hidle : st.isLoading = false)
    (hquiz : b.quiz = .ok qs) :
    ∃ stored : ChatMessage,
      histGet (handleSendMessage st message .quiz now b now2).1.chatHistory nb.id =
        histGet st.chatHistory nb.id ++ [userMessageOf now message, stored] ∧
      stored.role = .model ∧
      stored.contentType = .QUIZ ∧
      quizQuestionsOf stored = qs ∧
      ((∀ q ∈ qs, q.correctAnswer ∈ q.options) →
        ∀ q ∈ quizQuestionsOf stored, q.correctAnswer ∈ q.options) := by
  have hri : runIntent .quiz b now2 =
      .ok { text := "Here is your quiz:", contentType := .QUIZ,
            contentData := some (.quiz qs) } := by
    rw [runIntent, hquiz]
  rw [handleSendMessage_accepted st message .quiz now b now2 nb hactive hidle, hri]
  dsimp only
  refine ⟨{ id := msgIdOf (now + 1), role := .model, text := "Here is your quiz:",
            contentType := .QUIZ, contentData := some (.quiz qs) }, ?_, rfl, rfl, rfl, ?_⟩
  · rw [histGet_updateChat_self, histGet_updateChat_self]
    simp
  · exact fun h => h

/-- Claim C8 counterexample: with a backend payload whose correct answer
is not among its options, the stored QUIZ message contains exactly that
question, so the claimed invariant fails for the stored message. -/
theorem C8_quiz_invariant_counterexample :
    ((histGet (handleSendMessage stWithSource "quiz please" .quiz 0 badQuizBackend 1).1.chatHistory
        "nb1")[1]?).map (fun m => m.contentType) = some ContentType.QUIZ ∧
    ((histGet (handleSendMessage stWithSource "quiz please" .quiz 0 badQuizBackend 1).1.chatHistory
        "nb1")[1]?).map quizQuestionsOf = some [badQuizQuestion] ∧
    badQuizQuestion.correctAnswer ∉ badQuizQuestion.options :=
  ⟨by decide, by decide, by decide⟩

/-- Claim C8 witness: the amended theorem applied with a well-formed
concrete payload. -/
theorem C8_quiz_payload_witness :
    ∃ stored : ChatMessage,
      histGet (handleSendMessage stWithSource "q" .quiz 0 goodQuizBackend 1).1.chatHistory
          sampleNotebook.id =
        histGet stWithSource.chatHistory sampleNotebook.id ++ [userMessageOf 0 "q", stored] ∧
      stored.role = .model ∧
      stored.contentType = .QUIZ ∧
      quizQuestionsOf stored = [goodQuizQuestion] ∧
      ((∀ q ∈ [goodQuizQuestion], q.correctAnswer ∈ q.options) →
        ∀ q ∈ quizQuestionsOf stored, q.correctAnswer ∈ q.options) :=
  C8_quiz_payload_stored_verbatim stWithSource "q" 0 goodQuizBackend 1 sampleNotebook
    [goodQuizQuestion] rfl rfl rfl

/-- Claim C9: deleting a saved item whose id is absent leaves every
notebook's savedItems collection unchanged (no error is possible — the
operation is total), and delete is idempotent: applying the same delete
twice yields exactly the state of applying it once. -/
theorem C9_delete_absent_noop_idempotent :
    (∀ (st : AppState) (notebookId itemId : String) (nb : Notebook),
      findNotebook st.notebooks notebookId = some nb →
      (∀ item ∈ savedItemsOf nb, item.id ≠ itemId) →
      ∀ k, (findNotebook (handleDeleteSavedItem st notebookId itemId).notebooks k).map
        savedItemsOf = (findNotebook st.notebooks k).map savedItemsOf) ∧
    (∀ (st : AppState) (notebookId itemId : String),
      handleDeleteSavedItem (handleDeleteSavedItem st notebookId itemId) notebookId itemId =
        handleDeleteSavedItem st notebookId itemId) := by
  refine ⟨?_, handleDeleteSavedItem_idem⟩
  intro st notebookId itemId nb hfind habsent k
  by_cases hk : k = notebookId
  · subst hk
    rw [handleDeleteSavedItem_find, hfind, Option.map_some', Option.map_some']
    have hkeep : (savedItemsOf nb).filter (fun item => item.id != itemId) = savedItemsOf nb := by
      rw [List.filter_eq_self]
      intro item hitem
      simpa using habsent item hitem
    have hsv : savedItemsOf { nb with savedItems := some ((savedItemsOf nb).filter (fun item => item.id != itemId)) } = (savedItemsOf nb).filter (fun item => item.id != itemId) := rfl
    rw [hsv, hkeep, Option.map_some']
  · unfold handleDeleteSavedItem
    have := findNotebook_map_update_other st.notebooks notebookId k
      (fun n => { n with savedItems := some ((savedItemsOf n).filter (fun item => item.id != itemId)) })
      (fun n => rfl) hk
    rw [this]

/-- Claim C9 witness: the theorem applied at a concrete state and an
absent id. -/
theorem C9_delete_absent_witness :
    (∀ k, (findNotebook (handleDeleteSavedItem stWithSource "nb1" "nope").notebooks k).map
        savedItemsOf = (findNotebook stWithSource.notebooks k).map savedItemsOf) ∧
    handleDeleteSavedItem (handleDeleteSavedItem stWithSource "nb1" "nope") "nb1" "nope" =
      handleDeleteSavedItem stWithSource "nb1" "nope" :=
  ⟨C9_delete_absent_noop_idempotent.1 stWithSource "nb1" "nope" sampleNotebook rfl
      (fun item hitem => absurd hitem (List.not_mem_nil item)),
   C9_delete_absent_noop_idempotent.2 stWithSource "nb1" "nope"⟩

/-- Claim C10: deleting the active notebook resets the active pointer to
the first remaining notebook's id (or `null` when none remain); deleting
a non-active notebook leaves the pointer unchanged. -/
theorem C10_delete_notebook_active_pointer (st : AppState) (id : String) :
    (st.activeNotebookId = some id →
      (handleDeleteNotebook st id).activeNotebookId =
        ((st.notebooks.filter (fun n => n.id != id)).head?).map (fun n => n.id)) ∧
    (st.activeNotebookId ≠ some id →
      (handleDeleteNotebook st id).activeNotebookId = st.activeNotebookId) := by
  constructor
  · intro h
    unfold handleDeleteNotebook
    dsimp only
    rw [if_pos h]
    cases hl : st.notebooks.filter (fun n => n.id != id) with
    | nil => rfl
    | cons n rest => rfl
  · intro h
    unfold handleDeleteNotebook
    dsimp only
    rw [if_neg h]

/-- Claim C10 witness: the theorem applied at concrete states, deleting
the active notebook and a non-active one. -/
theorem C10_delete_notebook_witness :
    (handleDeleteNotebook stWithSource "nb1").activeNotebookId =
      ((stWithSource.notebooks.filter (fun n => n.id != "nb1")).head?).map (fun n => n.id) ∧
    (handleDeleteNotebook stWithSource "zzz").activeNotebookId =
      stWithSource.activeNotebookId :=
  ⟨(C10_delete_notebook_active_pointer stWithSource "nb1").1 rfl,
   (C10_delete_notebook_active_pointer stWithSource "zzz").2 (by decide)⟩
